import Mathlib

/-!
# Verification of the WordMath scoring core (`src/lib.rs`)

Shallow embedding of the WordMath guard library: tokenization,
repetition density, Jaccard-based topic drift, linear score combination,
environment-driven configuration, and hex trace-id generation.

Modelling conventions:
* Rust `f64` arithmetic is modelled by exact rational arithmetic (`ℚ`).
  Every numeric claim of the spec is stated over the idealized reals the
  spec itself uses; rounding of binary floating point is abstracted away.
* `unicode_words()` (UAX#29 word segmentation) is modelled as the maximal
  runs of alphanumeric characters; `str::to_lowercase` is modelled by
  per-character ASCII lowercasing.  Both coincide with the Rust behaviour
  on the ASCII inputs exercised by the claims.
* `HashSet<String>` is modelled by `Finset String`; `HashMap<String,usize>`
  occurrence counts are modelled by `List.count` over the token list.
* `SystemTime::now()` is modelled by an explicit clock parameter
  `now_ns : Int`, the wall-clock reading in nanoseconds relative to the
  Unix epoch (negative = before the epoch, in which case
  `duration_since(UNIX_EPOCH)` errs and `unwrap_or_default()` yields the
  zero duration).
-/

/-- A character counts as a word character (model of UAX#29 word bodies:
maximal alphanumeric runs). -/
def isWordChar (c : Char) : Bool := c.isAlphanum

/-- Splits a character list into maximal runs of word characters.
`acc` holds the (reversed) run currently being read. -/
def wordRuns : List Char → List Char → List (List Char)
  | [], acc => if acc.isEmpty then [] else [acc.reverse]
  | c :: rest, acc =>
      if isWordChar c then wordRuns rest (c :: acc)
      else if acc.isEmpty then wordRuns rest []
      else acc.reverse :: wordRuns rest []

/-- Model of `message.unicode_words().map(|w| w.to_lowercase())`
(lib.rs lines 69-72 and 93-100): Unicode word segmentation modelled as
maximal alphanumeric runs, each token case-folded to lowercase. -/
def tokenize (s : String) : List String :=
  (wordRuns s.data []).map (fun w => String.mk (w.map Char.toLower))

/-- The token set of a string: the model of collecting the lowercased
words into a `HashSet<String>` (lib.rs lines 93-100). -/
def tokenSet (s : String) : Finset String := (tokenize s).toFinset

/-- Configuration for the Word-Math scoring function f(y, z)
(lib.rs lines 5-11).  `f64` weights modelled as rationals. -/
structure WordMathConfig where
  alpha : ℚ
  beta : ℚ
deriving DecidableEq, Repr

/-- Model of `impl Default for WordMathConfig` (lib.rs lines 13-19):
repetition and drift weighted equally. -/
def default_config : WordMathConfig := ⟨1/2, 1/2⟩

/-- Result of analyzing a single message (lib.rs lines 52-57). -/
structure WordMathAnalysis where
  y_repetition : ℚ
  z_drift : ℚ
  score : ℚ
deriving DecidableEq, Repr

/-- Hex-stamped trace metadata for auditing (lib.rs lines 60-65). -/
structure WordMathTrace where
  hex_id : String
  message_len : Nat
  topic_len : Nat
deriving DecidableEq, Repr

/-- The maximal occurrence count over the token multiset: model of
building `HashMap<String, usize>` counts and taking
`counts.values().max().unwrap_or(0)` (lib.rs lines 79-84).  The map's
key set is the deduplicated token list; each key's value is the token's
multiplicity. -/
def max_count (words : List String) : Nat :=
  ((words.dedup).map (fun w => words.count w)).foldr max 0

/-- Compute repetition density y = max_w c(w) / n for a message
(lib.rs lines 68-86). -/
def compute_repetition_density (message : String) : ℚ :=
  let words := tokenize message
  let n := words.length
  if n = 0 then 0
  else (max_count words : ℚ) / (n : ℚ)

/-- Jaccard-based topic drift baseline (lib.rs lines 92-119). -/
def compute_topic_drift (message : String) (topic : String) : ℚ :=
  let msg_words := tokenSet message
  let topic_words := tokenSet topic
  if msg_words = ∅ ∧ topic_words = ∅ then 0
  else if msg_words = ∅ ∨ topic_words = ∅ then 1
  else
    let intersection_size : ℚ := ((msg_words ∩ topic_words).card : ℚ)
    let union_size : ℚ := ((msg_words ∪ topic_words).card : ℚ)
    let jaccard_similarity := if union_size > 0 then intersection_size / union_size else 0
    1 - jaccard_similarity

/-- Linear Word-Math scoring function
f_lin(y, z) = 1 - alpha * y - beta * z, clamped to [0, 1]
(lib.rs lines 125-134). -/
def score_linear (y z : ℚ) (cfg : WordMathConfig) : ℚ :=
  let raw := 1 - cfg.alpha * y - cfg.beta * z
  let floored := if raw < 0 then 0 else raw
  if floored > 1 then 1 else floored

/-- Model of Rust's `str::parse::<f64>()` restricted to plain signed
decimal literals (optional sign, integer digits, optional fractional
part), which covers the configuration values the spec discusses;
exponent/inf/nan forms are abstracted away.  Returns the exact rational
value.  Helper: leading decimal digits of a character list. -/
def takeDigits : List Char → List Char × List Char
  | [] => ([], [])
  | c :: rest =>
      if c.isDigit then
        let p := takeDigits rest
        (c :: p.1, p.2)
      else ([], c :: rest)

/-- Numeric value of a list of decimal digit characters. -/
def digitsVal : List Char → Nat
  | [] => 0
  | c :: rest => (c.toNat - 48) * 10 ^ rest.length + digitsVal rest

/-- Discrete stage of the `str::parse::<f64>()` model: recognizes
`[sign] digits [. digits]` and returns
(sign, integer-part value, fraction-part value, fraction digit count);
`none` models `Err(ParseFloatError)`. -/
def parseDecimal (s : String) : Option (Int × Nat × Nat × Nat) :=
  let signed : Int × List Char :=
    match s.data with
    | '-' :: rest => (-1, rest)
    | '+' :: rest => (1, rest)
    | cs => (1, cs)
  let ip := takeDigits signed.2
  match ip.2 with
  | [] => if ip.1.isEmpty then none else some (signed.1, digitsVal ip.1, 0, 0)
  | '.' :: rest =>
      let fp := takeDigits rest
      if fp.2.isEmpty ∧ ¬(ip.1.isEmpty ∧ fp.1.isEmpty) then
        some (signed.1, digitsVal ip.1, digitsVal fp.1, fp.1.length)
      else none
  | _ => none

/-- Model of `str::parse::<f64>()` on simple decimal literals (see
`parseDecimal`): the exact rational value of the recognized literal. -/
def parseF64 (s : String) : Option ℚ :=
  (parseDecimal s).map (fun p => (p.1 : ℚ) * ((p.2.1 : ℚ) + (p.2.2.1 : ℚ) / 10 ^ p.2.2.2))

/-- The environment input of `WordMathConfig::from_env`: the values of
`WORD_MATH_ALPHA` and `WORD_MATH_BETA` (`none` models a missing or
non-unicode variable, i.e. `std::env::var` returning `Err`). -/
structure Env where
  alpha_var : Option String
  beta_var : Option String

/-- The override-parsing stage of `WordMathConfig::from_env`
(lib.rs lines 26-38): start from the defaults and install each weight
override whose value is present and parses. -/
def from_env_raw (env : Env) : WordMathConfig :=
  let cfg := default_config
  let cfg1 :=
    match env.alpha_var with
    | some astr =>
        match parseF64 astr with
        | some a => { cfg with alpha := a }
        | none => cfg
    | none => cfg
  match env.beta_var with
  | some bstr =>
      match parseF64 bstr with
      | some b => { cfg1 with beta := b }
      | none => cfg1
  | none => cfg1

/-- The normalization stage of `WordMathConfig::from_env`
(lib.rs lines 40-45): if alpha + beta > 1 (and the sum is positive,
a redundant conjunct kept from the source), divide both by the sum. -/
def normalize_config (cfg : WordMathConfig) : WordMathConfig :=
  let sum := cfg.alpha + cfg.beta
  if sum > 1 ∧ sum > 0 then ⟨cfg.alpha / sum, cfg.beta / sum⟩ else cfg

/-- Model of `WordMathConfig::from_env` (lib.rs lines 25-48): parse the two
optional overrides, then normalize. -/
def from_env (env : Env) : WordMathConfig := normalize_config (from_env_raw env)

/-- The nanosecond value actually formatted by `generate_hex_id`:
`SystemTime::now().duration_since(UNIX_EPOCH).unwrap_or_default().as_nanos()`
(lib.rs lines 141-144).  A clock before the epoch makes `duration_since`
return `Err`, so `unwrap_or_default` yields the zero duration. -/
def clockNanos (now_ns : Int) : Nat := if now_ns < 0 then 0 else now_ns.toNat

/-- Lowercase hexadecimal digit character for `m < 16`. -/
def hexDigitChar (m : Nat) : Char :=
  if m < 10 then Char.ofNat (48 + m) else Char.ofNat (87 + m)

/-- Little-endian hexadecimal digit list of `n` (empty for 0); `fuel`
bounds the recursion and is complete whenever `fuel > n`. -/
def hexCharsLE : Nat → Nat → List Char
  | 0, _ => []
  | fuel + 1, n => if n = 0 then [] else hexDigitChar (n % 16) :: hexCharsLE fuel (n / 16)

/-- Model of `format!("{:016x}", n)`: the hexadecimal digits of `n`,
zero-padded on the left to a minimum width of 16.  Note `format!` pads
to a *minimum* width: a value of 2^64 or more renders with all of its
digits rather than being truncated. -/
def format_hex_16 (n : Nat) : String :=
  let ds := (hexCharsLE (n + 1) n).reverse
  String.mk (List.replicate (16 - ds.length) '0' ++ ds)

/-- Generate a simple hex ID for tracing (lib.rs lines 138-147), with
the wall-clock reading passed explicitly (see module conventions). -/
def generate_hex_id (now_ns : Int) : String :=
  format_hex_16 (clockNanos now_ns)

/-- Analyze a message given a topic string, returning y, z, f(y, z) and
a hex-stamped trace record (lib.rs lines 151-173).

NOTE: the source line 157 reads `let z = compute_topic_drift(message);`,
passing a single argument to the two-parameter `compute_topic_drift` —
ill-typed Rust (rustc error E0061), so the crate does not compile as
written.  The function's own signature and doc comment ("Analyze a
message given a topic string"), the HTTP handler in `src/bin/server.rs`
(which forwards both strings), and the spec (§2, §4.7: "Drift Analyzer
consumes both token sets") all require the call
`compute_topic_drift(message, topic)`; the embedding uses that intended
call.  The one-argument slip is recorded against claims C1/C2. -/
def analyze_message_with_trace (message topic : String) (cfg : WordMathConfig)
    (now_ns : Int) : WordMathAnalysis × WordMathTrace :=
  let y := compute_repetition_density message
  let z := compute_topic_drift message topic
  let score := score_linear y z cfg
  (⟨y, z, score⟩, ⟨generate_hex_id now_ns, message.length, topic.length⟩)

/-- Jaccard distance on the two token sets, written exactly as the spec
describes it (§4.3): 0 when both sets are empty, 1 when exactly one is
empty, otherwise 1 − |M ∩ T| / |M ∪ T|.  This is the spec-side
definition compared against `compute_topic_drift` in claim C3. -/
def jaccard_distance (message topic : String) : ℚ :=
  let M := tokenSet message
  let T := tokenSet topic
  if M = ∅ ∧ T = ∅ then 0
  else if M = ∅ ∨ T = ∅ then 1
  else 1 - ((M ∩ T).card : ℚ) / ((M ∪ T).card : ℚ)

/-- A lowercase hexadecimal digit: 0-9 or a-f. -/
def isLowerHexDigit (c : Char) : Bool :=
  ('0' ≤ c && c ≤ '9') || ('a' ≤ c && c ≤ 'f')

lemma le_foldr_max {l : List Nat} {a : Nat} (h : a ∈ l) : a ≤ l.foldr max 0 := by
  induction l with
  | nil => cases h
  | cons b t ih =>
      rcases List.mem_cons.mp h with rfl | hmem
      · exact le_max_left _ _
      · exact le_trans (ih hmem) (le_max_right _ _)

lemma foldr_max_le {l : List Nat} {n : Nat} (h : ∀ a ∈ l, a ≤ n) : l.foldr max 0 ≤ n := by
  induction l with
  | nil => exact Nat.zero_le n
  | cons b t ih =>
      exact max_le (h b (List.mem_cons_self b t)) (ih fun a ha => h a (List.mem_cons_of_mem b ha))

lemma max_count_le_length (words : List String) : max_count words ≤ words.length := by
  refine foldr_max_le ?_
  intro a ha
  rcases List.mem_map.mp ha with ⟨w, _, rfl⟩
  exact List.count_le_length w words

lemma one_le_max_count {words : List String} (h : words ≠ []) : 1 ≤ max_count words := by
  rcases List.exists_mem_of_ne_nil words h with ⟨w, hw⟩
  refine le_trans ?_ (le_foldr_max (l := (words.dedup).map fun v => words.count v)
    (List.mem_map.mpr ⟨w, List.mem_dedup.mpr hw, rfl⟩))
  exact List.count_pos_iff.mpr hw

/-- C4: `compute_repetition_density` returns max_w count(w) / n where n
is the total token count and count(w) the count of the most frequent
token; when n = 0 it returns exactly 0, and for every input with n > 0
(equivalently, a non-empty token list) the result satisfies 0 < y ≤ 1. -/
theorem compute_repetition_density_spec (message : String) :
    compute_repetition_density message
      = (max_count (tokenize message) : ℚ) / ((tokenize message).length : ℚ) ∧
    (compute_repetition_density message = 0 ↔ tokenize message = []) ∧
    0 ≤ compute_repetition_density message ∧
    compute_repetition_density message ≤ 1 := by
  by_cases h : tokenize message = []
  · simp [compute_repetition_density, h, max_count]
  · have hn : (tokenize message).length ≠ 0 := fun hc => h (List.length_eq_zero.mp hc)
    have hnpos : (0:ℚ) < ((tokenize message).length : ℚ) := by
      exact_mod_cast Nat.pos_of_ne_zero hn
    have hmax : (1:ℚ) ≤ (max_count (tokenize message) : ℚ) := by
      exact_mod_cast one_le_max_count h
    have hle : (max_count (tokenize message) : ℚ) ≤ ((tokenize message).length : ℚ) := by
      exact_mod_cast max_count_le_length (tokenize message)
    have heq : compute_repetition_density message
        = (max_count (tokenize message) : ℚ) / ((tokenize message).length : ℚ) := by
      simp [compute_repetition_density, hn]
    have hpos : 0 < compute_repetition_density message := by
      rw [heq]
      exact div_pos (lt_of_lt_of_le zero_lt_one hmax) hnpos
    refine ⟨heq, ⟨fun h0 => absurd h0 (ne_of_gt hpos), fun hc => absurd hc h⟩,
      le_of_lt hpos, ?_⟩
    rw [heq]
    exact (div_le_one hnpos).mpr hle

/-- C3: `compute_topic_drift` returns 1 minus the Jaccard similarity of
the two lowercased token sets — 0 when both are empty, 1 when exactly
one is empty, 1 − |M ∩ T| / |M ∪ T| when both are non-empty — and in
that last case the union is non-empty, so the division is well-defined
(the defensive divide-by-zero guard is never the branch taken). -/
theorem compute_topic_drift_spec (message topic : String) :
    compute_topic_drift message topic = jaccard_distance message topic ∧
    (tokenSet message = ∅ ∨ tokenSet topic = ∅ ∨
      0 < (tokenSet message ∪ tokenSet topic).card) := by
  by_cases hM : tokenSet message = ∅
  · simp [compute_topic_drift, jaccard_distance, hM]
  · by_cases hT : tokenSet topic = ∅
    · simp [compute_topic_drift, jaccard_distance, hM, hT]
    · have hu : 0 < (tokenSet message ∪ tokenSet topic).card := by
        rw [Finset.card_pos]
        exact (Finset.nonempty_iff_ne_empty.mpr hM).mono Finset.subset_union_left
      have hu' : (0:ℚ) < ((tokenSet message ∪ tokenSet topic).card : ℚ) := by
        exact_mod_cast hu
      refine ⟨?_, Or.inr (Or.inr hu)⟩
      simp [compute_topic_drift, jaccard_distance, hM, hT, hu']

/-- C9: `compute_topic_drift` is symmetric in its two arguments. -/
theorem compute_topic_drift_symm (A B : String) :
    compute_topic_drift A B = compute_topic_drift B A := by
  by_cases hA : tokenSet A = ∅ <;> by_cases hB : tokenSet B = ∅ <;>
    simp [compute_topic_drift, hA, hB, Finset.inter_comm, Finset.union_comm]

/-- C5: `score_linear y z cfg` equals clamp(1 − alpha·y − beta·z, 0, 1);
the result always lies in [0,1] (so in particular for y, z in [0,1] and
non-negative weights with alpha + beta ≤ 1), `score_linear 0 0 cfg = 1`
for every config, and `score_linear 1 1 ⟨1/2, 1/2⟩ = 0` exactly. -/
theorem score_linear_spec (y z : ℚ) (cfg : WordMathConfig) :
    score_linear y z cfg = min 1 (max 0 (1 - cfg.alpha * y - cfg.beta * z)) ∧
    0 ≤ score_linear y z cfg ∧ score_linear y z cfg ≤ 1 ∧
    score_linear 0 0 cfg = 1 ∧
    score_linear 1 1 ⟨1/2, 1/2⟩ = 0 := by
  have hmain : ∀ (a b : ℚ) (c : WordMathConfig),
      score_linear a b c = min 1 (max 0 (1 - c.alpha * a - c.beta * b)) := by
    intro a b c
    simp only [score_linear]
    rcases lt_or_le (1 - c.alpha * a - c.beta * b) 0 with h | h
    · rw [if_pos h, if_neg (by norm_num : ¬ (0:ℚ) > 1), max_eq_left h.le,
        min_eq_right (by norm_num : (0:ℚ) ≤ 1)]
    · rw [if_neg (not_lt.mpr h), max_eq_right h]
      rcases lt_or_le 1 (1 - c.alpha * a - c.beta * b) with h1 | h1
      · rw [if_pos h1, min_eq_left h1.le]
      · rw [if_neg (not_lt.mpr h1), min_eq_right h1]
  refine ⟨hmain y z cfg, ?_, ?_, ?_, ?_⟩
  · rw [hmain]
    exact le_min (by norm_num) (le_max_left 0 _)
  · rw [hmain]
    exact min_le_left 1 _
  · rw [hmain]
    norm_num
  · rw [hmain]
    norm_num

/-- C6: after configuration construction, weights with a sum above 1 are
both divided by the sum (so the normalized weights sum to exactly 1, and
overrides "2.0"/"2.0" yield alpha = beta = 1/2), while a sum ≤ 1 leaves
the parsed weights untouched. -/
theorem normalize_config_spec (cfg : WordMathConfig) :
    normalize_config cfg
      = (if 1 < cfg.alpha + cfg.beta then
          ⟨cfg.alpha / (cfg.alpha + cfg.beta), cfg.beta / (cfg.alpha + cfg.beta)⟩
        else cfg) ∧
    (1 < cfg.alpha + cfg.beta →
      (normalize_config cfg).alpha + (normalize_config cfg).beta = 1) ∧
    from_env ⟨some "2.0", some "2.0"⟩ = ⟨1/2, 1/2⟩ := by
  have hcond : (cfg.alpha + cfg.beta > 1 ∧ cfg.alpha + cfg.beta > 0)
      ↔ (1 < cfg.alpha + cfg.beta) :=
    ⟨fun h => h.1, fun h => ⟨h, lt_trans zero_lt_one h⟩⟩
  have h1 : normalize_config cfg
      = (if 1 < cfg.alpha + cfg.beta then
          ⟨cfg.alpha / (cfg.alpha + cfg.beta), cfg.beta / (cfg.alpha + cfg.beta)⟩
        else cfg) := by
    simp only [normalize_config]
    rw [if_congr hcond rfl rfl]
  refine ⟨h1, ?_, ?_⟩
  · intro h
    rw [h1, if_pos h]
    show cfg.alpha / (cfg.alpha + cfg.beta) + cfg.beta / (cfg.alpha + cfg.beta) = 1
    rw [div_add_div_same, div_self (ne_of_gt (lt_trans zero_lt_one h))]
  · have hparse : parseF64 "2.0" = some 2 := by
      rw [parseF64, show parseDecimal "2.0" = some (1, 2, 0, 1) from by decide]
      norm_num
    have hraw : from_env_raw ⟨some "2.0", some "2.0"⟩ = ⟨2, 2⟩ := by
      simp [from_env_raw, hparse, default_config]
    rw [from_env, hraw]
    norm_num [normalize_config]

/-- Witness for `normalize_config_spec` at the concrete config ⟨2, 2⟩,
whose weights sum to 4 > 1 and normalize to a sum of exactly 1. -/
theorem normalize_config_spec_witness :
    (1:ℚ) < (⟨2, 2⟩ : WordMathConfig).alpha + (⟨2, 2⟩ : WordMathConfig).beta ∧
    (normalize_config ⟨2, 2⟩).alpha + (normalize_config ⟨2, 2⟩).beta = 1 :=
  ⟨by norm_num, (normalize_config_spec ⟨2, 2⟩).2.1 (by norm_num)⟩

/-- C7: each weight override is handled independently: the parsed alpha
is the valid override when one is present and the default 1/2 when the
value is absent or unparsable, and likewise for beta, regardless of the
other entry; e.g. an unparsable alpha with beta = "0.25" gives ⟨1/2, 1/4⟩. -/
theorem from_env_raw_independent (a b : Option String) :
    (from_env_raw ⟨a, b⟩).alpha = (a.bind parseF64).getD (1/2) ∧
    (from_env_raw ⟨a, b⟩).beta = (b.bind parseF64).getD (1/2) ∧
    from_env_raw ⟨some "oops", some "0.25"⟩ = ⟨1/2, 1/4⟩ := by
  have hoops : parseF64 "oops" = none := by
    rw [parseF64, show parseDecimal "oops" = none from by decide]
    rfl
  have hq : parseF64 "0.25" = some (1/4) := by
    rw [parseF64, show parseDecimal "0.25" = some (1, 0, 25, 2) from by decide]
    norm_num
  have key : ∀ (a1 b1 : Option String),
      (from_env_raw ⟨a1, b1⟩).alpha = (a1.bind parseF64).getD (1/2) ∧
      (from_env_raw ⟨a1, b1⟩).beta = (b1.bind parseF64).getD (1/2) := by
    intro a1 b1
    rcases a1 with _ | astr
    · rcases b1 with _ | bstr
      · simp [from_env_raw, default_config]
      · rcases hpb : parseF64 bstr with _ | bv <;>
          simp [from_env_raw, default_config, hpb]
    · rcases b1 with _ | bstr
      · rcases hpa : parseF64 astr with _ | av <;>
          simp [from_env_raw, default_config, hpa]
      · rcases hpa : parseF64 astr with _ | av <;>
          rcases hpb : parseF64 bstr with _ | bv <;>
          simp [from_env_raw, default_config, hpa, hpb]
  refine ⟨(key a b).1, (key a b).2, ?_⟩
  simp [from_env_raw, hoops, hq, default_config]

/-- C10: `generate_hex_id` is total under clock anomalies: a wall-clock
reading before the Unix epoch makes `duration_since(UNIX_EPOCH)` err,
`unwrap_or_default` yields the zero duration, and the id is the all-zero
16-digit string. -/
theorem generate_hex_id_pre_epoch (now_ns : Int) (h : now_ns < 0) :
    generate_hex_id now_ns = "0000000000000000" := by
  rw [generate_hex_id, clockNanos, if_pos h]
  decide

/-- Witness for `generate_hex_id_pre_epoch` at the concrete pre-epoch
reading −7 ns. -/
theorem generate_hex_id_pre_epoch_witness :
    (-7 : Int) < 0 ∧ generate_hex_id (-7) = "0000000000000000" :=
  ⟨by decide, generate_hex_id_pre_epoch (-7) (by decide)⟩

lemma hexCharsLE_length_le {k n : Nat} (fuel : Nat) (h : n < 16 ^ k) :
    (hexCharsLE fuel n).length ≤ k := by
  induction k generalizing n fuel with
  | zero =>
      have hn : n = 0 := Nat.lt_one_iff.mp (by simpa using h)
      subst hn
      cases fuel with
      | zero => simp [hexCharsLE]
      | succ f => simp [hexCharsLE]
  | succ k ih =>
      cases fuel with
      | zero => simp [hexCharsLE]
      | succ f =>
          by_cases hn : n = 0
          · simp [hexCharsLE, hn]
          · rw [hexCharsLE, if_neg hn]
            simp only [List.length_cons]
            have hdiv : n / 16 < 16 ^ k := by
              rw [Nat.div_lt_iff_lt_mul (by norm_num : 0 < 16)]
              calc n < 16 ^ (k + 1) := h
                _ = 16 ^ k * 16 := pow_succ 16 k
            exact Nat.succ_le_succ (ih f hdiv)

lemma hexCharsLE_all_hex (fuel n : Nat) :
    (hexCharsLE fuel n).all isLowerHexDigit = true := by
  induction fuel generalizing n with
  | zero => rfl
  | succ f ih =>
      by_cases hn : n = 0
      · simp [hexCharsLE, hn]
      · rw [hexCharsLE, if_neg hn, List.all_cons, Bool.and_eq_true]
        exact ⟨(by decide : ∀ m, m < 16 → isLowerHexDigit (hexDigitChar m) = true)
          (n % 16) (Nat.mod_lt _ (by norm_num)), ih (n / 16)⟩

lemma format_hex_16_length (n : Nat) :
    (format_hex_16 n).length
      = (16 - (hexCharsLE (n + 1) n).length) + (hexCharsLE (n + 1) n).length := by
  simp [format_hex_16, String.length]

/-- C8 counterexample: the identifier is not 16 hex digits for every
clock reading.  At the reading 2^64 nanoseconds after the epoch (a valid
`u128` value of `as_nanos()`, reached around the year 2554),
`format!("{:016x}", nanos)` pads to a *minimum* of 16 digits and renders
all 17 digits of the value instead of truncating or wrapping it. -/
theorem generate_hex_id_overflow_length :
    (generate_hex_id ((2:Int) ^ 64)).length = 17 ∧
    (generate_hex_id ((2:Int) ^ 64)).length ≠ 16 := by
  constructor
  · decide
  · decide

/-- C8 (amended): for every clock reading the identifier is a string of
lowercase hexadecimal digits, zero-padded to a minimum width of 16, and
exactly 16 digits whenever the (clamped) nanosecond value is below 2^64
— values at or above 2^64 render in full rather than being
truncated/wrapped; and the trace's message_len and topic_len are the
Unicode scalar value (code point) counts of the original message and
topic strings, independent of tokenization. -/
theorem generate_hex_id_format (now_ns : Int) (message topic : String)
    (cfg : WordMathConfig) :
    16 ≤ (generate_hex_id now_ns).length ∧
    (generate_hex_id now_ns).data.all isLowerHexDigit = true ∧
    (clockNanos now_ns < 2 ^ 64 → (generate_hex_id now_ns).length = 16) ∧
    (analyze_message_with_trace message topic cfg now_ns).2.message_len
      = message.data.length ∧
    (analyze_message_with_trace message topic cfg now_ns).2.topic_len
      = topic.data.length := by
  refine ⟨?_, ?_, ?_, rfl, rfl⟩
  · rw [generate_hex_id, format_hex_16_length]
    omega
  · rw [generate_hex_id]
    show (List.replicate _ '0' ++ (hexCharsLE _ _).reverse).all isLowerHexDigit = true
    rw [List.all_append, Bool.and_eq_true]
    constructor
    · rw [List.all_eq_true]
      intro c hc
      rw [List.eq_of_mem_replicate hc]
      decide
    · rw [List.all_reverse]
      exact hexCharsLE_all_hex _ _
  · intro h
    have h16 : clockNanos now_ns < 16 ^ 16 := by
      calc clockNanos now_ns < 2 ^ 64 := h
        _ = 16 ^ 16 := by norm_num
    have hlen := hexCharsLE_length_le (k := 16) (clockNanos now_ns + 1) h16
    rw [generate_hex_id, format_hex_16_length]
    omega

/-- Witness for `generate_hex_id_format` at the concrete clock reading
255 ns (id `00000000000000ff`, message "ab", topic "cde"). -/
theorem generate_hex_id_format_witness :
    clockNanos 255 < 2 ^ 64 ∧ (generate_hex_id 255).length = 16 :=
  ⟨by decide, (generate_hex_id_format 255 "ab" "cde" default_config).2.2.1 (by decide)⟩

/-- C1: `analyze("hello hello world", "hello world greeting",
default_config)` yields y_repetition = 2/3 (tokens hello:2, world:1),
z_drift = 1/3 (sets of size 2 and 3, intersection 2, union 3) and
score = 1 − (1/2)·(2/3) − (1/2)·(1/3) = 1/2.  These are the values of
the intended composition; the shipped source's one-argument drift call
on lib.rs line 157 does not type-check (see
`analyze_message_with_trace`), which is recorded as a code bug. -/
theorem analyze_hello_scenario :
    (analyze_message_with_trace "hello hello world" "hello world greeting"
        default_config 0).1.y_repetition = 2/3 ∧
    (analyze_message_with_trace "hello hello world" "hello world greeting"
        default_config 0).1.z_drift = 1/3 ∧
    (analyze_message_with_trace "hello hello world" "hello world greeting"
        default_config 0).1.score = 1/2 := by
  have hy : compute_repetition_density "hello hello world" = 2/3 := by
    unfold compute_repetition_density
    rw [show tokenize "hello hello world" = ["hello", "hello", "world"] from by decide]
    norm_num [show max_count ["hello", "hello", "world"] = 2 from by decide]
  have hz : compute_topic_drift "hello hello world" "hello world greeting" = 1/3 := by
    unfold compute_topic_drift
    rw [if_neg (by decide), if_neg (by decide)]
    rw [show (tokenSet "hello hello world" ∩ tokenSet "hello world greeting").card = 2
          from by decide,
        show (tokenSet "hello hello world" ∪ tokenSet "hello world greeting").card = 3
          from by decide]
    norm_num
  simp only [analyze_message_with_trace]
  rw [hy, hz]
  refine ⟨rfl, rfl, ?_⟩
  norm_num [score_linear, default_config]

/-- C2 counterexample: the numeric outputs of the (intended) analysis
are not independent of the topic: with message "hello", topic "hello"
gives z_drift = 0 while topic "world" gives z_drift = 1. -/
theorem analyze_topic_dependence :
    (analyze_message_with_trace "hello" "hello" default_config 0).1.z_drift ≠
      (analyze_message_with_trace "hello" "world" default_config 0).1.z_drift := by
  have h1 : compute_topic_drift "hello" "hello" = 0 := by
    unfold compute_topic_drift
    rw [if_neg (by decide), if_neg (by decide)]
    rw [show (tokenSet "hello" ∩ tokenSet "hello").card = 1 from by decide,
        show (tokenSet "hello" ∪ tokenSet "hello").card = 1 from by decide]
    norm_num
  have h2 : compute_topic_drift "hello" "world" = 1 := by
    unfold compute_topic_drift
    rw [if_neg (by decide), if_neg (by decide)]
    rw [show (tokenSet "hello" ∩ tokenSet "world").card = 0 from by decide,
        show (tokenSet "hello" ∪ tokenSet "world").card = 2 from by decide]
    norm_num
  simp only [analyze_message_with_trace]
  rw [h1, h2]
  norm_num

/-- C2 (amended): the z_drift and score of the analysis agree across two
topic arguments exactly when nothing distinguishes their token sets:
for any two topics whose lowercased token sets coincide (and any two
clock readings), all three numeric fields agree; in general the drift —
and hence the score — depends on the topic (the claim's premise that
the orchestrator feeds the drift computation only the message describes
lib.rs line 157, which does not type-check as written). -/
theorem analyze_topic_tokenset_invariance (message topic1 topic2 : String)
    (cfg : WordMathConfig) (t1 t2 : Int)
    (h : tokenSet topic1 = tokenSet topic2) :
    (analyze_message_with_trace message topic1 cfg t1).1.y_repetition =
      (analyze_message_with_trace message topic2 cfg t2).1.y_repetition ∧
    (analyze_message_with_trace message topic1 cfg t1).1.z_drift =
      (analyze_message_with_trace message topic2 cfg t2).1.z_drift ∧
    (analyze_message_with_trace message topic1 cfg t1).1.score =
      (analyze_message_with_trace message topic2 cfg t2).1.score := by
  simp only [analyze_message_with_trace, compute_topic_drift, h]
  exact ⟨trivial, trivial, trivial⟩

/-- Witness for `analyze_topic_tokenset_invariance`: the topics
"Hello!" and "hello" have the same token set, so the drift of
"hi hi" against either agrees (at distinct clock readings 0 and 5). -/
theorem analyze_topic_tokenset_invariance_witness :
    tokenSet "Hello!" = tokenSet "hello" ∧
    (analyze_message_with_trace "hi hi" "Hello!" default_config 0).1.z_drift =
      (analyze_message_with_trace "hi hi" "hello" default_config 5).1.z_drift :=
  ⟨by decide, (analyze_topic_tokenset_invariance "hi hi" "Hello!" "hello"
    default_config 0 5 (by decide)).2.1⟩

